import Mathlib

/-!
Shallow embedding of the DocuSight field state store and overlay compositor
(the AnalysisView component) together with its validation logic.

Numbers that JavaScript holds as doubles are modelled as exact rationals;
Math.floor and Math.round become the integer floor and floor-of-plus-half.
Advisory fields (example, confidence, explanation) never affect control flow
and are omitted from the field record.
-/

/-- Field status, from types.ts: filled | empty | uncertain | skipped. -/
inductive FieldStatus
  | filled
  | empty
  | uncertain
  | skipped
deriving DecidableEq, Repr

/-- Field type, from types.ts. -/
inductive FieldType
  | text
  | date
  | number
  | checkbox
  | currency
  | signature
  | email
  | phone
  | address
  | image
deriving DecidableEq, Repr

/-- One extracted field, from the FieldData interface in types.ts.
The bounding box is the 4-tuple (ymin, xmin, ymax, xmax) of normalized
coordinates; an absent box is modelled as none. -/
structure FieldData where
  key : String
  value : String
  label : String
  type : FieldType
  status : FieldStatus
  required : Bool
  boundingBox : Option (ℚ × ℚ × ℚ × ℚ)
deriving DecidableEq, Repr

/-- setValue: the state update of handleFieldChange.  The matching field gets
the new value and a status recomputed from JS truthiness of the new value. -/
def handleFieldChange (fields : List FieldData) (key newValue : String) :
    List FieldData :=
  fields.map fun f =>
    if f.key = key then
      { f with value := newValue,
               status := if newValue = "" then FieldStatus.empty
                         else FieldStatus.filled }
    else f

/-- toggleSkip: the state update of handleSkipField. -/
def handleSkipField (fields : List FieldData) (key : String) : List FieldData :=
  fields.map fun f =>
    if f.key = key then
      { f with status :=
          if f.status = FieldStatus.skipped then
            (if f.value = "" then FieldStatus.empty else FieldStatus.filled)
          else FieldStatus.skipped }
    else f

/-- requiredFields: fields.filter(f => f.required). -/
def requiredFields (fields : List FieldData) : List FieldData :=
  fields.filter fun f => f.required

/-- filledRequired: requiredFields.filter(f => f.status === filled ||
f.status === skipped).length. -/
def filledRequired (fields : List FieldData) : Nat :=
  ((requiredFields fields).filter fun f =>
    decide (f.status = FieldStatus.filled) ||
    decide (f.status = FieldStatus.skipped)).length

/-- JS Math.round on a nonnegative double: floor of the argument plus half. -/
def jsRound (q : ℚ) : ℤ := (q + 1/2).floor

/-- completionRate: Math.round((filledRequired / requiredFields.length) * 100)
when there is at least one required field, else 100. -/
def completionRate (fields : List FieldData) : ℤ :=
  if 0 < (requiredFields fields).length then
    jsRound (((filledRequired fields : ℚ) /
      ((requiredFields fields).length : ℚ)) * 100)
  else 100

/-- The offending list computed inside handleSave:
fields.filter(f => f.required && f.status === empty). -/
def stillMissing (fields : List FieldData) : List FieldData :=
  fields.filter fun f => f.required && decide (f.status = FieldStatus.empty)

/-- Outcome of the save/validate pass (the saveMessage set by handleSave). -/
inductive SaveMessage
  | success
  | validationError (count : Nat)
deriving DecidableEq, Repr

/-- validate: the synchronous classification inside handleSave (the simulated
delay is presentation only). -/
def handleSave (fields : List FieldData) : SaveMessage :=
  let missing := stillMissing fields
  if 0 < missing.length then SaveMessage.validationError missing.length
  else SaveMessage.success

/-- Natural dimensions of a decoded raster (an HTMLImageElement that loaded
successfully). -/
structure Img where
  naturalWidth : ℚ
  naturalHeight : ℚ
deriving DecidableEq, Repr

/-- The uniform fit factor of handleDownloadFilledDoc:
Math.min(w / fieldImg.naturalWidth, h / fieldImg.naturalHeight). -/
def fitScale (w h nw nh : ℚ) : ℚ := min (w / nw) (h / nh)

/-- drawW = fieldImg.naturalWidth * scale. -/
def drawW (w h nw nh : ℚ) : ℚ := nw * fitScale w h nw nh

/-- drawH = fieldImg.naturalHeight * scale. -/
def drawH (w h nw nh : ℚ) : ℚ := nh * fitScale w h nw nh

/-- drawX = x + (w - drawW) / 2. -/
def drawX (x w h nw nh : ℚ) : ℚ := x + (w - drawW w h nw nh) / 2

/-- drawY = y + (h - drawH) / 2. -/
def drawY (y w h nw nh : ℚ) : ℚ := y + (h - drawH w h nw nh) / 2

/-- Font size for the text branches: Math.floor(h * 0.6) clamped into
[12, 60] by the two successive if statements. -/
def fontSizeFor (h : ℚ) : ℤ :=
  let fs := (h * (0.6 : ℚ)).floor
  let fs1 := if fs < 12 then 12 else fs
  if fs1 > 60 then 60 else fs1

/-- Checkbox truthiness: value.toLowerCase() is true, yes or checked. -/
def isCheckedValue (v : String) : Bool :=
  v.toLower == "true" || v.toLower == "yes" || v.toLower == "checked"

/-- One primitive canvas operation emitted while compositing a field. -/
inductive DrawOp
  | image (src : String) (x y w h : ℚ)
  | text (s : String) (fontSize : ℤ) (x y maxWidth : ℚ)
deriving DecidableEq, Repr

/-- The per-field body of the compositing loop in handleDownloadFilledDoc.
decode models per-field raster decoding: none is a failed load, whose
drawImage paints nothing.  Returns the canvas operations drawn for the
field. -/
def drawField (decode : String → Option Img) (W H : ℚ) (f : FieldData) :
    List DrawOp :=
  match f.boundingBox with
  | none => []
  | some (ymin, xmin, ymax, xmax) =>
    if f.value = "" ∨ f.status = FieldStatus.skipped then []
    else
      let x := xmin * W
      let y := ymin * H
      let w := (xmax - xmin) * W
      let h := (ymax - ymin) * H
      if f.type = FieldType.image ∨ f.type = FieldType.signature then
        match decode f.value with
        | none => []
        | some img =>
          [DrawOp.image f.value
            (drawX x w h img.naturalWidth img.naturalHeight)
            (drawY y w h img.naturalWidth img.naturalHeight)
            (drawW w h img.naturalWidth img.naturalHeight)
            (drawH w h img.naturalWidth img.naturalHeight)]
      else
        let fontSize := fontSizeFor h
        let textY := y + h / 2
        let textX := x + 5
        if f.type = FieldType.checkbox then
          if isCheckedValue f.value then
            [DrawOp.text "✓" fontSize textX textY (w - 10)]
          else []
        else
          [DrawOp.text f.value fontSize textX textY (w - 10)]

/-- The whole field loop, in list order. -/
def compositeFields (decode : String → Option Img) (W H : ℚ)
    (fields : List FieldData) : List DrawOp :=
  (fields.map (drawField decode W H)).flatten

/-- handleDownloadFilledDoc: baseImage models the decode of the original
image (none is a load failure, which the code turns into a thrown error
caught at the end).  The second component is the field store after the
operation; the code never writes to it. -/
def handleDownloadFilledDoc (baseImage : Option Img)
    (decode : String → Option Img) (fields : List FieldData) :
    Except String (List DrawOp) × List FieldData :=
  match baseImage with
  | none => (Except.error "Failed to load original image", fields)
  | some img =>
    (Except.ok (compositeFields decode img.naturalWidth img.naturalHeight
      fields), fields)

/-- A field whose status agrees with its value under the derivation rule of
the store: either explicitly skipped, or filled exactly when the value is
non-empty.  Statuses produced by setValue and toggleSkip always satisfy
this; a status of uncertain (from extraction) does not. -/
def statusConsistent (f : FieldData) : Prop :=
  f.status = FieldStatus.skipped ∨
  f.status = (if f.value = "" then FieldStatus.empty else FieldStatus.filled)

instance (f : FieldData) : Decidable (statusConsistent f) := by
  unfold statusConsistent; infer_instance

/-- Example input: a skipped required text field. -/
def exFieldC1 : FieldData :=
  { key := "k", value := "old", label := "K", type := FieldType.text,
    status := FieldStatus.skipped, required := true, boundingBox := none }

/-- Example input: a required text field whose extraction status is
uncertain while its value is non-empty. -/
def exFieldC2 : FieldData :=
  { key := "k", value := "x", label := "K", type := FieldType.text,
    status := FieldStatus.uncertain, required := true, boundingBox := none }

/-- Example input: a filled required text field with a non-empty value. -/
def exFieldC2w : FieldData :=
  { key := "k", value := "x", label := "K", type := FieldType.text,
    status := FieldStatus.filled, required := true, boundingBox := none }

/-- Example input: a required text field that is still empty. -/
def exFieldC3a : FieldData :=
  { key := "a", value := "", label := "A", type := FieldType.text,
    status := FieldStatus.empty, required := true, boundingBox := none }

/-- Example input: a required text field that is filled. -/
def exFieldC3b : FieldData :=
  { key := "b", value := "x", label := "B", type := FieldType.text,
    status := FieldStatus.filled, required := true, boundingBox := none }

/-- Example input: a signature field whose bounding box covers a 200 by 200
pixel region while the uploaded raster is only 50 by 50. -/
def exFieldC5 : FieldData :=
  { key := "s", value := "sig", label := "S", type := FieldType.signature,
    status := FieldStatus.filled, required := true,
    boundingBox := some (0, 0, 1, 1) }

/-- Example input: a field with a bounding box but an empty value. -/
def exFieldC7 : FieldData :=
  { key := "c", value := "", label := "C", type := FieldType.text,
    status := FieldStatus.empty, required := false,
    boundingBox := some (0, 0, 1/2, 1/2) }

/-- Example input: a field whose key is not the one being edited. -/
def exFieldC8 : FieldData :=
  { key := "present", value := "v", label := "P", type := FieldType.text,
    status := FieldStatus.filled, required := false, boundingBox := none }

/-- Example input: a required field whose extraction status is uncertain. -/
def exFieldC10 : FieldData :=
  { key := "u", value := "", label := "U", type := FieldType.text,
    status := FieldStatus.uncertain, required := true, boundingBox := none }

/-! ## Helper lemmas -/

theorem jsRound_eq (q : ℚ) : jsRound q = ⌊q + 1/2⌋ :=
  (Rat.floor_def' (q + 1/2)).trans Rat.floor_def.symm

theorem ratFloor_eq (q : ℚ) : q.floor = ⌊q⌋ :=
  (Rat.floor_def' q).trans Rat.floor_def.symm

theorem stillMissing_mem (fields : List FieldData) (f : FieldData) :
    f ∈ stillMissing fields ↔
      f ∈ fields ∧ f.required = true ∧ f.status = FieldStatus.empty := by
  simp [stillMissing, List.mem_filter, and_assoc]

/-! ## Claim theorems -/

/-- Claim C3: validate classifies the field set as invalid exactly when some
field is required and empty; the offending list consists of exactly those
fields; for one empty required field next to one filled required field it
reports exactly one missing field. -/
theorem validate_reports_required_empty :
    (∀ fields : List FieldData,
      (handleSave fields = SaveMessage.success ↔
        ¬ ∃ f, f ∈ fields ∧ f.required = true ∧
          f.status = FieldStatus.empty) ∧
      (∀ f : FieldData, f ∈ stillMissing fields ↔
        f ∈ fields ∧ f.required = true ∧ f.status = FieldStatus.empty) ∧
      (handleSave fields = SaveMessage.success ∨
        handleSave fields =
          SaveMessage.validationError (stillMissing fields).length)) ∧
    handleSave [exFieldC3a, exFieldC3b] = SaveMessage.validationError 1 := by
  constructor
  · intro fields
    have hor : handleSave fields = SaveMessage.success ∨
        handleSave fields =
          SaveMessage.validationError (stillMissing fields).length := by
      by_cases hlen : 0 < (stillMissing fields).length
      · exact Or.inr (by simp [handleSave, hlen])
      · exact Or.inl (by simp [handleSave, hlen])
    refine ⟨?_, stillMissing_mem fields, hor⟩
    have hsucc : handleSave fields = SaveMessage.success ↔
        stillMissing fields = [] := by
      rcases h0 : stillMissing fields with _ | ⟨f, t⟩ <;>
        simp [handleSave, h0]
    rw [hsucc, List.eq_nil_iff_forall_not_mem]
    simp only [stillMissing_mem]
    exact not_exists.symm
  · decide

/-- Claim C4: completionRate equals round(100 times the number of required
fields that are filled or skipped over the number of required fields), is
100 when there is no required field, and always lies in [0, 100]. -/
theorem completionRate_spec (fields : List FieldData) :
    (completionRate fields =
      if (requiredFields fields).length = 0 then 100
      else jsRound ((100 * (filledRequired fields : ℚ)) /
        ((requiredFields fields).length : ℚ))) ∧
    0 ≤ completionRate fields ∧ completionRate fields ≤ 100 := by
  have hFR : filledRequired fields ≤ (requiredFields fields).length :=
    List.length_filter_le _ _
  rcases Nat.eq_zero_or_pos (requiredFields fields).length with h0 | hpos
  · simp [completionRate, h0]
  · have hne : (requiredFields fields).length ≠ 0 := Nat.pos_iff_ne_zero.mp hpos
    have hRq : (0 : ℚ) < ((requiredFields fields).length : ℚ) := by
      exact_mod_cast hpos
    have hcr : completionRate fields =
        jsRound (((filledRequired fields : ℚ) /
          ((requiredFields fields).length : ℚ)) * 100) := by
      simp [completionRate, hpos]
    have hq0 : (0 : ℚ) ≤ ((filledRequired fields : ℚ) /
        ((requiredFields fields).length : ℚ)) * 100 := by positivity
    have hq100 : ((filledRequired fields : ℚ) /
        ((requiredFields fields).length : ℚ)) * 100 ≤ 100 := by
      have h1 : ((filledRequired fields : ℚ) /
          ((requiredFields fields).length : ℚ)) ≤ 1 := by
        rw [div_le_one hRq]
        exact_mod_cast hFR
      nlinarith
    refine ⟨?_, ?_, ?_⟩
    · rw [hcr, if_neg hne, div_mul_eq_mul_div, mul_comm]
    · rw [hcr, jsRound_eq]
      have : (0 : ℚ) ≤ ((filledRequired fields : ℚ) /
          ((requiredFields fields).length : ℚ)) * 100 + 1/2 := by linarith
      exact_mod_cast Int.le_floor.mpr (by exact_mod_cast this)
    · rw [hcr, jsRound_eq]
      have hlt : ((filledRequired fields : ℚ) /
          ((requiredFields fields).length : ℚ)) * 100 + 1/2 <
          ((101 : ℤ) : ℚ) := by
        push_cast
        linarith
      have := Int.floor_lt.mpr hlt
      omega

/-- Claim C10: a required field with status uncertain never appears in the
list of validation offenders, yet is not counted as complete: a field set
whose only field is required and uncertain validates successfully while its
completion rate stays strictly below 100. -/
theorem uncertain_passes_validation_incomplete :
    (∀ (fields : List FieldData) (f : FieldData),
        f ∈ fields → f.status = FieldStatus.uncertain →
        f ∉ stillMissing fields) ∧
    handleSave [exFieldC10] = SaveMessage.success ∧
    completionRate [exFieldC10] < 100 := by
  refine ⟨?_, by decide, ?_⟩
  · intro fields f hf hu hmem
    have h := ((stillMissing_mem fields f).mp hmem).2.2
    rw [hu] at h
    cases h
  · have h1 : filledRequired [exFieldC10] = 0 := by decide
    have h2 : requiredFields [exFieldC10] = [exFieldC10] := by decide
    simp only [completionRate, h1, h2, List.length_singleton]
    norm_num [jsRound_eq]

/-- Claim C10 witness: the concrete uncertain required field is not an
offender of its own singleton field set. -/
theorem uncertain_passes_validation_incomplete_witness :
    exFieldC10 ∉ stillMissing [exFieldC10] :=
  uncertain_passes_validation_incomplete.1 [exFieldC10] exFieldC10
    (List.mem_singleton.mpr rfl) rfl

/-- Claim C1 counterexample: on a field whose current status is skipped, a
direct setValue with a non-empty value does not leave the status untouched —
the status becomes filled. -/
theorem setValue_overwrites_skipped :
    (handleFieldChange [exFieldC1] "k" "new").map FieldData.status =
      [FieldStatus.filled] ∧ FieldStatus.filled ≠ FieldStatus.skipped := by
  decide

/-- Claim C1 (amended): setValue replaces the matching field's value and
always recomputes its status from the new value — filled if non-empty, else
empty — regardless of the prior status, including skipped; every other field
is untouched and the order is preserved. -/
theorem setValue_recomputes_status (fields : List FieldData)
    (key v : String) (i : Fin fields.length) :
    (handleFieldChange fields key v).get
      (Fin.cast (by simp [handleFieldChange]) i) =
      (if (fields.get i).key = key
       then { (fields.get i) with
              value := v,
              status := if v = "" then FieldStatus.empty
                        else FieldStatus.filled }
       else fields.get i) := by
  simp [handleFieldChange]

/-- Claim C2 counterexample: toggleSkip is not involutive on a field whose
initial status is uncertain with a non-empty value — two toggles land on
filled, not back on uncertain. -/
theorem toggleSkip_not_involutive_uncertain :
    (handleSkipField (handleSkipField [exFieldC2] "k") "k").map
        FieldData.status = [FieldStatus.filled] ∧
    FieldStatus.filled ≠ FieldStatus.uncertain := by
  decide

/-- Claim C2 (amended): toggleSkip applied twice restores every field
provided each field with the toggled key has a status consistent with its
value — skipped, or filled exactly when the value is non-empty.  For a
status of uncertain (or one inconsistent with the value) the double toggle
lands on the value-derived status instead. -/
theorem toggleSkip_involutive (fields : List FieldData) (key : String)
    (h : ∀ f ∈ fields, f.key = key → statusConsistent f) :
    handleSkipField (handleSkipField fields key) key = fields := by
  unfold handleSkipField
  rw [List.map_map]
  refine (List.map_congr_left fun f hf => ?_).trans (List.map_id fields)
  obtain ⟨fk, fv, fl, ft, fs, fr, fb⟩ := f
  by_cases hk : fk = key
  · subst hk
    have hc := h _ hf rfl
    simp only [statusConsistent] at hc
    rcases hc with hs | hs
    · subst hs
      by_cases hv : fv = ""
      · subst hv; simp
      · simp [hv]
    · by_cases hv : fv = ""
      · subst hv
        rw [if_pos rfl] at hs
        subst hs
        simp
      · rw [if_neg hv] at hs
        subst hs
        simp [hv]
  · simp [Function.comp, hk]

/-- Claim C2 witness: the double toggle at a concrete consistent field. -/
theorem toggleSkip_involutive_witness :
    handleSkipField (handleSkipField [exFieldC2w] "k") "k" = [exFieldC2w] :=
  toggleSkip_involutive [exFieldC2w] "k" (by decide)

/-- Claim C6: when the base image fails to decode, the composite operation
returns the load error and draws nothing; moreover the field store is
returned unchanged by the operation for every decode outcome. -/
theorem baseImage_failure_aborts (decode : String → Option Img)
    (fields : List FieldData) :
    handleDownloadFilledDoc none decode fields =
      (Except.error "Failed to load original image", fields) ∧
    ∀ b : Option Img, (handleDownloadFilledDoc b decode fields).2 = fields := by
  refine ⟨rfl, ?_⟩
  intro b
  cases b <;> rfl

/-- Claim C8: setValue with a key that matches no field is a no-op — the
field list, hence every value, status, the count and the order, is returned
unchanged, and no failure is reported. -/
theorem setValue_unknown_key_noop (fields : List FieldData)
    (key v : String) (h : ∀ f ∈ fields, f.key ≠ key) :
    handleFieldChange fields key v = fields := by
  unfold handleFieldChange
  refine (List.map_congr_left fun f hf => ?_).trans (List.map_id fields)
  rw [if_neg (h f hf)]
  rfl

/-- Claim C8 witness: editing an absent key at a concrete field set. -/
theorem setValue_unknown_key_noop_witness :
    handleFieldChange [exFieldC8] "absent" "v" = [exFieldC8] :=
  setValue_unknown_key_noop [exFieldC8] "absent" "v" (by decide)

/-- Claim C5 counterexample: the fit factor is not capped at 1.0 — for a 50
by 50 raster in a 200 by 200 pixel box the compositor draws the raster at
200 by 200, scaling by min(200/50, 200/50) = 4. -/
theorem compositor_upscales_small_raster :
    drawField (fun _ => some ⟨50, 50⟩) 200 200 exFieldC5 =
      [DrawOp.image "sig" 0 0 200 200] ∧
    (1 : ℚ) < fitScale 200 200 50 50 := by
  constructor
  · norm_num [drawField, exFieldC5, drawX, drawY, drawW, drawH, fitScale]
    decide
  · norm_num [fitScale]

/-- Claim C5 (amended): image and signature rasters are scaled by the
uniform factor min(boxWidth/naturalWidth, boxHeight/naturalHeight) — which
can exceed 1.0 when the box is larger than the raster in both dimensions —
with the source aspect ratio preserved exactly, the result fitting inside
the box, and the drawn raster centered horizontally and vertically. -/
theorem imageFit_spec (x y w h nw nh : ℚ) (hnw : 0 < nw) (hnh : 0 < nh) :
    drawW w h nw nh = nw * min (w / nw) (h / nh) ∧
    drawW w h nw nh * nh = drawH w h nw nh * nw ∧
    drawX x w h nw nh - x = (x + w) - (drawX x w h nw nh + drawW w h nw nh) ∧
    drawY y w h nw nh - y = (y + h) - (drawY y w h nw nh + drawH w h nw nh) ∧
    drawW w h nw nh ≤ w ∧ drawH w h nw nh ≤ h := by
  refine ⟨rfl, ?_, ?_, ?_, ?_, ?_⟩
  · simp only [drawW, drawH]; ring
  · simp only [drawX]; ring
  · simp only [drawY]; ring
  · calc nw * fitScale w h nw nh ≤ nw * (w / nw) :=
          mul_le_mul_of_nonneg_left (min_le_left _ _) hnw.le
      _ = w := by field_simp
  · calc nh * fitScale w h nw nh ≤ nh * (h / nh) :=
          mul_le_mul_of_nonneg_left (min_le_right _ _) hnh.le
      _ = h := by field_simp

/-- Claim C5 witness: the amended fit properties at a concrete box and
raster. -/
theorem imageFit_spec_witness : drawW 30 40 10 20 ≤ 30 :=
  (imageFit_spec 1 2 30 40 10 20 (by norm_num) (by norm_num)).2.2.2.2.1

/-- Claim C7: a field lacking a bounding box, lacking a value, or in
skipped status is excluded entirely from the composite — it produces no
canvas operation and no failure. -/
theorem drawField_excludes (decode : String → Option Img) (W H : ℚ)
    (f : FieldData)
    (h : f.boundingBox = none ∨ f.value = "" ∨
      f.status = FieldStatus.skipped) :
    drawField decode W H f = [] := by
  rcases hbb : f.boundingBox with _ | ⟨ymin, xmin, ymax, xmax⟩
  · simp [drawField, hbb]
  · rcases h with h | h | h
    · rw [hbb] at h; cases h
    · simp [drawField, hbb, h]
    · simp [drawField, hbb, h]

/-- Claim C7 witness: the concrete field that has a bounding box but an
empty value contributes nothing. -/
theorem drawField_excludes_witness :
    drawField (fun _ => none) 100 100 exFieldC7 = [] :=
  drawField_excludes (fun _ => none) 100 100 exFieldC7 (Or.inr (Or.inl rfl))

/-- Claim C9: the font size for non-checkbox, non-image, non-signature
fields is floor(0.6 times the box height) clamped into [12, 60]; box height
10 gives 12, box height 200 gives 60, box height 50 gives 30. -/
theorem fontSize_clamped :
    (∀ h : ℚ, fontSizeFor h = max 12 (min 60 ⌊h * (0.6 : ℚ)⌋)) ∧
    fontSizeFor 10 = 12 ∧ fontSizeFor 200 = 60 ∧ fontSizeFor 50 = 30 := by
  have hbody : ∀ h : ℚ, fontSizeFor h =
      max 12 (min 60 ⌊h * (0.6 : ℚ)⌋) := by
    intro h
    simp only [fontSizeFor, ratFloor_eq]
    generalize ⌊h * (0.6 : ℚ)⌋ = fs
    split_ifs <;> omega
  refine ⟨hbody, ?_, ?_, ?_⟩
  · rw [hbody]; norm_num
  · rw [hbody]; norm_num
  · rw [hbody]; norm_num
